import Mathlib

/-!
Shallow embedding of the chess move-validation core of `src/main.py`:
piece geometric rules, the 8x8 board with Python-list indexing semantics,
`Board.move_piece` / `Board.is_valid_move` / `Board.get_piece_at` /
`Board.serialize_board`, and the `Game` turn state machine.

Conventions taken from the source:
- a position is a pair of Python ints `(x, y)` where `x` is the rank
  (row index) and `y` is the file (column index);
- colors are the strings "white" (the spec's Light) and "black" (Dark);
- Python exceptions are modelled by `Except PyError`: `HTTPException`
  carries its status code and a detail kind, and a bare list-index
  failure is `PyError.indexError`;
- Python list indexing `l[i]` accepts `-len(l) <= i < len(l)`, a negative
  index wrapping to `i + len(l)`; anything else raises `IndexError`.
-/

inductive PieceKind where
  | king | queen | rook | bishop | knight | pawn
deriving DecidableEq, Repr

/-- Detail kinds of the `HTTPException`s raised by the core, one per
`raise` site in `src/main.py`. `invalidMove` is the 400 "Invalid move!"
raised by `move_piece` when `is_valid_move` returns False (the spec's
IllegalGeometry). -/
inductive ErrDetail where
  | outOfBounds | friendlyFire | emptySource | invalidMove
deriving DecidableEq, Repr

/-- A Python exception as observed by the core: an `HTTPException`
(status code, detail), a bare `IndexError` from list indexing, or the
`TypeError` raised by `Queen.move` (it constructs `Rook()` / `Bishop()`
without the `color` argument `Piece.__init__` requires). -/
inductive PyError where
  | httpException (status : Nat) (detail : ErrDetail)
  | indexError
  | typeError
deriving DecidableEq, Repr

/-- A piece object: its class determines `kind`, `self.color` is a string
("white" or "black" for pieces actually placed by the program). -/
structure Piece where
  kind : PieceKind
  color : String
deriving DecidableEq, Repr

/-- The content of a board cell: `none` is Python `None`. -/
abbrev Occupant := Option Piece

/-- A position as handed to the core: a pair of (unbounded) integers. -/
abbrev Pos := Int × Int

/-- The board grid: a list of rows, each a list of cells. -/
abbrev Grid := List (List Occupant)

/-! Piece rule set, one function per piece class in the source. -/

/-- Embeds `King.move`. -/
def King.move (pf pt : Pos) : Bool :=
  decide (|pf.1 - pt.1| ≤ 1 ∧ |pf.2 - pt.2| ≤ 1)

/-- Embeds `Rook.move`. -/
def Rook.move (pf pt : Pos) : Bool :=
  decide (pf.1 = pt.1 ∨ pf.2 = pt.2)

/-- Embeds `Knight.move`. -/
def Knight.move (pf pt : Pos) : Bool :=
  decide ((|pf.1 - pt.1| = 2 ∧ |pf.2 - pt.2| = 1) ∨
          (|pf.1 - pt.1| = 1 ∧ |pf.2 - pt.2| = 2))

/-- Embeds `Bishop.move`. -/
def Bishop.move (pf pt : Pos) : Bool :=
  decide (|pf.1 - pt.1| = |pf.2 - pt.2|)

/-- Embeds `Queen.move`: the body is
`Rook().move(position_from, position_to) or Bishop().move(...)`, but
`Rook()` omits the `color` argument `Piece.__init__` requires, so every
call raises `TypeError` before any rule is evaluated — no boolean is
ever produced. -/
def Queen.move (_ _ : Pos) : Except PyError Bool :=
  .error .typeError

/-- Embeds `Pawn.move`. -/
def Pawn.move (pf pt : Pos) : Bool :=
  decide (pf.1 = pt.1 ∧ |pf.2 - pt.2| = 1)

/-- The source's dynamic dispatch `piece.move(from, to)`, keyed by the
piece's class. Five classes compute a boolean verdict; a Queen raises
`TypeError` (see `Queen.move`). -/
def pieceMove : PieceKind → Pos → Pos → Except PyError Bool
  | .king => fun pf pt => .ok (King.move pf pt)
  | .queen => Queen.move
  | .rook => fun pf pt => .ok (Rook.move pf pt)
  | .bishop => fun pf pt => .ok (Bishop.move pf pt)
  | .knight => fun pf pt => .ok (Knight.move pf pt)
  | .pawn => fun pf pt => .ok (Pawn.move pf pt)

/-! Spec-side geometric rules, written from the table in §4.1 of the spec
(Δx = |from.rank − to.rank|, Δy = |from.file − to.file|), to be compared
with the source's rule set. -/

/-- Spec table: Δx of a relocation. -/
def specDx (f t : Pos) : Nat := (f.1 - t.1).natAbs

/-- Spec table: Δy of a relocation. -/
def specDy (f t : Pos) : Nat := (f.2 - t.2).natAbs

/-- Spec table: the Rook rule, `from.rank == to.rank or from.file == to.file`. -/
def specRookRule (f t : Pos) : Bool := decide (f.1 = t.1 ∨ f.2 = t.2)

/-- Spec table: the Bishop rule, `Δx == Δy`. -/
def specBishopRule (f t : Pos) : Bool := decide (specDx f t = specDy f t)

/-- The spec's per-kind geometric legality table (§4.1), modelled from the
spec's words for comparison against `pieceMove`. -/
def specGeomRule : PieceKind → Pos → Pos → Bool
  | .king, f, t => decide (specDx f t ≤ 1 ∧ specDy f t ≤ 1)
  | .rook, f, t => specRookRule f t
  | .bishop, f, t => specBishopRule f t
  | .knight, f, t => decide ((specDx f t = 2 ∧ specDy f t = 1) ∨
                             (specDx f t = 1 ∧ specDy f t = 2))
  | .queen, f, t => specRookRule f t || specBishopRule f t
  | .pawn, f, t => decide (f.1 = t.1 ∧ specDy f t = 1)

/-! Python list indexing semantics, shared by every `self.board[...]`
access in the source. -/

/-- The effective index of Python `l[i]` on a list of length `n`:
`some k` with `k` the actual offset, or `none` when indexing raises
`IndexError`. -/
def pyIdx (n : Nat) (i : Int) : Option Nat :=
  if 0 ≤ i ∧ i < (n : Int) then some i.toNat
  else if -(n : Int) ≤ i ∧ i < 0 then some (i + n).toNat
  else none

/-- Python `l[i]` as an expression: the element at the effective index,
or an `IndexError`. -/
def pyGet {α : Type} (l : List α) (i : Int) : Except PyError α :=
  match pyIdx l.length i with
  | some k =>
    match l[k]? with
    | some a => .ok a
    | none => .error .indexError
  | none => .error .indexError

/-- Python `l[i] = a` as a statement: the updated list, or an
`IndexError`. -/
def pySet {α : Type} (l : List α) (i : Int) (a : α) : Except PyError (List α) :=
  match pyIdx l.length i with
  | some k => .ok (l.set k a)
  | none => .error .indexError

/-! The Board. -/

/-- Embeds `Board.get_piece_at`: `self.board[position[0]][position[1]]`,
with Python indexing (wrap-around for negative indices, `IndexError`
otherwise — the source performs no bounds check here). -/
def get_piece_at (b : Grid) (pos : Pos) : Except PyError Occupant :=
  match pyGet b pos.1 with
  | .ok row => pyGet row pos.2
  | .error e => .error e

/-- Embeds the statement `self.board[pos[0]][pos[1]] = v` of
`Board.move_piece`: Python first indexes the outer list, then assigns
into the row. -/
def setCell (b : Grid) (pos : Pos) (v : Occupant) : Except PyError Grid :=
  match pyGet b pos.1 with
  | .ok row =>
    match pySet row pos.2 v with
    | .ok row2 => pySet b pos.1 row2
    | .error e => .error e
  | .error e => .error e

/-- Embeds `Board.is_valid_move(piece, position_from, position_to)`:
destination bounds check, then same-color destination check, then the
piece's geometric rule (`return piece.move(...)` — which, for a Queen,
raises `TypeError` instead of returning a verdict). -/
def is_valid_move (b : Grid) (piece : Piece) (pf pt : Pos) : Except PyError Bool :=
  if 0 ≤ pt.1 ∧ pt.1 < 8 ∧ 0 ≤ pt.2 ∧ pt.2 < 8 then
    match get_piece_at b pt with
    | .ok (some q) =>
      if q.color = piece.color then .error (.httpException 400 .friendlyFire)
      else pieceMove piece.kind pf pt
    | .ok none => pieceMove piece.kind pf pt
    | .error e => .error e
  else .error (.httpException 400 .outOfBounds)

/-- Embeds `Board.move_piece(position_from, position_to)`. The returned
pair is (the call's outcome, the grid after the call): the source mutates
`self.board` in place, so the grid component reflects exactly the
assignments executed before the call returned or raised. -/
def move_piece (b : Grid) (pf pt : Pos) : Except PyError Bool × Grid :=
  match get_piece_at b pf with
  | .error e => (.error e, b)
  | .ok none => (.error (.httpException 404 .emptySource), b)
  | .ok (some piece) =>
    match is_valid_move b piece pf pt with
    | .error e => (.error e, b)
    | .ok false => (.error (.httpException 400 .invalidMove), b)
    | .ok true =>
      match setCell b pt (some piece) with
      | .error e => (.error e, b)
      | .ok b1 =>
        match setCell b1 pf none with
        | .error e => (.error e, b1)
        | .ok b2 => (.ok true, b2)

/-- Python `piece.__class__.__name__` for each piece class. -/
def class_name : PieceKind → String
  | .king => "King"
  | .queen => "Queen"
  | .rook => "Rook"
  | .bishop => "Bishop"
  | .knight => "Knight"
  | .pawn => "Pawn"

/-- Embeds `Board.serialize_board`: each cell becomes the piece's class
name, or `None` for an empty cell. -/
def serialize_board (b : Grid) : List (List (Option String)) :=
  b.map (fun row => row.map (fun c =>
    match c with
    | some p => some (class_name p.kind)
    | none => none))

/-- A back rank of the given color, as `initialize_board` builds rows 0
and 7: Rook, Knight, Bishop, Queen, King, Bishop, Knight, Rook. -/
def backRank (c : String) : List Occupant :=
  [some ⟨.rook, c⟩, some ⟨.knight, c⟩, some ⟨.bishop, c⟩, some ⟨.queen, c⟩,
   some ⟨.king, c⟩, some ⟨.bishop, c⟩, some ⟨.knight, c⟩, some ⟨.rook, c⟩]

/-- The grid produced by `Board.__init__` (8x8 of `None`, then
`initialize_board` fills rows 0, 1, 6, 7). -/
def initBoard : Grid :=
  [backRank "black",
   List.replicate 8 (some ⟨.pawn, "black"⟩),
   List.replicate 8 none,
   List.replicate 8 none,
   List.replicate 8 none,
   List.replicate 8 none,
   List.replicate 8 (some ⟨.pawn, "white"⟩),
   backRank "white"]

/-! The Game turn state machine. -/

/-- The `Game` object: its board grid and `self.current_player`. -/
structure Game where
  board : Grid
  current_player : String
deriving DecidableEq, Repr

/-- Embeds `Game.__init__`: fresh board, current player "white". -/
def Game.init : Game := ⟨initBoard, "white"⟩

/-- Embeds `Game.move(player, position_from, position_to)`. The first
component is what the Python call produces: `.ok (some true)` for
`return True`, `.ok (some false)` for `return False`, `.ok none` for the
implicit `return None` (the fall-through when `move_piece` would return a
falsy value), and `.error .indexError` / `.error .typeError` for an
uncaught `IndexError` or `TypeError` (`except` only catches
`HTTPException`). The second component is the `Game` object
afterwards. -/
def Game.move (g : Game) (player : String) (pf pt : Pos) :
    Except PyError (Option Bool) × Game :=
  if player = g.current_player then
    match move_piece g.board pf pt with
    | (.ok true, b2) =>
      (.ok (some true), ⟨b2, if player = "white" then "black" else "white"⟩)
    | (.ok false, b2) => (.ok none, ⟨b2, g.current_player⟩)
    | (.error (.httpException _ _), b2) => (.ok (some false), ⟨b2, g.current_player⟩)
    | (.error .indexError, b2) => (.error .indexError, ⟨b2, g.current_player⟩)
    | (.error .typeError, b2) => (.error .typeError, ⟨b2, g.current_player⟩)
  else (.ok (some false), g)

/-! Measures and predicates used by the claims. -/

/-- 1 when a cell is occupied, 0 when empty. -/
def occVal (c : Occupant) : Nat := if c.isSome then 1 else 0

/-- Number of occupied cells in one row. -/
def rowCount (row : List Occupant) : Nat := (row.map occVal).sum

/-- Total number of occupied cells on the board. -/
def countOcc (b : Grid) : Nat := (b.map rowCount).sum

/-- A position inside the board proper, `[0,8) x [0,8)`. -/
def inBounds (p : Pos) : Prop :=
  0 ≤ p.1 ∧ p.1 < 8 ∧ 0 ≤ p.2 ∧ p.2 < 8

/-- A position Python indexing accepts on an 8x8 grid (wrap-around
included): `[-8,8) x [-8,8)`. -/
def extBounds (p : Pos) : Prop :=
  -8 ≤ p.1 ∧ p.1 < 8 ∧ -8 ≤ p.2 ∧ p.2 < 8

instance : DecidablePred inBounds := fun p => by
  unfold inBounds; infer_instance

instance : DecidablePred extBounds := fun p => by
  unfold extBounds; infer_instance

/-- Repaint every occupant's color with `f`, leaving kinds and emptiness
alone; used to state that serialization ignores sides. -/
def recolor (f : String → String) (b : Grid) : Grid :=
  b.map (fun row => row.map (Option.map (fun p => ⟨p.kind, f p.color⟩)))

instance {ε α : Type} [DecidableEq ε] [DecidableEq α] : DecidableEq (Except ε α) :=
  fun a b =>
    match a, b with
    | .ok x, .ok y =>
      if h : x = y then .isTrue (by rw [h])
      else .isFalse (by intro hh; cases hh; exact h rfl)
    | .error x, .error y =>
      if h : x = y then .isTrue (by rw [h])
      else .isFalse (by intro hh; cases hh; exact h rfl)
    | .ok _, .error _ => .isFalse (by intro hh; cases hh)
    | .error _, .ok _ => .isFalse (by intro hh; cases hh)

/-! Helper lemmas about Python indexing. -/

theorem pyIdx_lt {n : Nat} {i : Int} {k : Nat} (h : pyIdx n i = some k) : k < n := by
  unfold pyIdx at h
  split at h
  · cases h; omega
  · split at h
    · cases h; omega
    · cases h

theorem pyIdx_some_of {n : Nat} {i : Int} (h : -(n : Int) ≤ i ∧ i < n) :
    ∃ k, pyIdx n i = some k := by
  unfold pyIdx
  split
  · exact ⟨_, rfl⟩
  · split
    · exact ⟨_, rfl⟩
    · omega

theorem pyIdx_none_of {n : Nat} {i : Int} (h : ¬(-(n : Int) ≤ i ∧ i < n)) :
    pyIdx n i = none := by
  unfold pyIdx
  split
  · omega
  · split
    · omega
    · rfl

theorem pyGet_idx_some {α : Type} {l : List α} {i : Int} {k : Nat}
    (h : pyIdx l.length i = some k) :
    pyGet l i = match l[k]? with
      | some a => .ok a
      | none => .error .indexError := by
  unfold pyGet
  rw [h]

theorem pyGet_some {α : Type} {l : List α} {i : Int} {k : Nat}
    (h : pyIdx l.length i = some k) (hk : k < l.length) :
    pyGet l i = .ok (l.get ⟨k, hk⟩) := by
  rw [pyGet_idx_some h, List.getElem?_eq_getElem hk]
  rfl

theorem pyGet_none {α : Type} {l : List α} {i : Int}
    (h : pyIdx l.length i = none) : pyGet l i = .error .indexError := by
  unfold pyGet
  rw [h]

theorem pyGet_ok_inv {α : Type} {l : List α} {i : Int} {a : α}
    (h : pyGet l i = .ok a) :
    ∃ k, ∃ hk : k < l.length, pyIdx l.length i = some k ∧ l.get ⟨k, hk⟩ = a := by
  cases hi : pyIdx l.length i
  · rw [pyGet_none hi] at h
    cases h
  · rename_i k
    have hk := pyIdx_lt hi
    rw [pyGet_some hi hk] at h
    cases h
    exact ⟨k, hk, rfl, rfl⟩

theorem pyGet_error_eq {α : Type} {l : List α} {i : Int} {e : PyError}
    (h : pyGet l i = .error e) : e = .indexError := by
  cases hi : pyIdx l.length i
  · rw [pyGet_none hi] at h
    cases h; rfl
  · rw [pyGet_some hi (pyIdx_lt hi)] at h
    cases h

theorem pySet_some {α : Type} {l : List α} {i : Int} {k : Nat}
    (h : pyIdx l.length i = some k) (a : α) :
    pySet l i a = .ok (l.set k a) := by
  unfold pySet
  rw [h]

/-! Helper lemmas about the Board operations. -/

theorem get_piece_at_some {b : Grid} {p : Pos} {ki kj : Nat}
    (hki : ki < b.length) (hi : pyIdx b.length p.1 = some ki)
    (hkj : kj < (b.get ⟨ki, hki⟩).length)
    (hj : pyIdx (b.get ⟨ki, hki⟩).length p.2 = some kj) :
    get_piece_at b p = .ok ((b.get ⟨ki, hki⟩).get ⟨kj, hkj⟩) := by
  simp only [get_piece_at, pyGet_some hi hki, pyGet_some hj hkj]

theorem get_piece_at_ok_inv {b : Grid} {p : Pos} {occ : Occupant}
    (h : get_piece_at b p = .ok occ) :
    ∃ ki kj, ∃ (hki : ki < b.length) (hkj : kj < (b.get ⟨ki, hki⟩).length),
      pyIdx b.length p.1 = some ki ∧
      pyIdx (b.get ⟨ki, hki⟩).length p.2 = some kj ∧
      (b.get ⟨ki, hki⟩).get ⟨kj, hkj⟩ = occ := by
  unfold get_piece_at at h
  cases hg : pyGet b p.1 <;> rw [hg] at h
  · cases h
  · rename_i row
    obtain ⟨ki, hki, hi, hrow⟩ := pyGet_ok_inv hg
    obtain ⟨kj, hkj, hj, hcell⟩ := pyGet_ok_inv h
    subst hrow
    exact ⟨ki, kj, hki, hkj, hi, hj, hcell⟩

theorem get_piece_at_error_eq {b : Grid} {p : Pos} {e : PyError}
    (h : get_piece_at b p = .error e) : e = .indexError := by
  unfold get_piece_at at h
  cases hg : pyGet b p.1 <;> rw [hg] at h
  · cases h
    exact pyGet_error_eq hg
  · exact pyGet_error_eq h

theorem setCell_some {b : Grid} {p : Pos} {ki kj : Nat}
    (hki : ki < b.length) (hi : pyIdx b.length p.1 = some ki)
    (hj : pyIdx (b.get ⟨ki, hki⟩).length p.2 = some kj) (v : Occupant) :
    setCell b p v = .ok (b.set ki ((b.get ⟨ki, hki⟩).set kj v)) := by
  simp only [setCell, pyGet_some hi hki, pySet_some hj v,
    pySet_some hi ((b.get ⟨ki, hki⟩).set kj v)]

theorem setCell_ok_inv {b b2 : Grid} {p : Pos} {v : Occupant}
    (h : setCell b p v = .ok b2) :
    ∃ ki kj, ∃ hki : ki < b.length,
      pyIdx b.length p.1 = some ki ∧
      pyIdx (b.get ⟨ki, hki⟩).length p.2 = some kj ∧
      b2 = b.set ki ((b.get ⟨ki, hki⟩).set kj v) := by
  cases hg : pyGet b p.1
  · rename_i e
    simp only [setCell, hg] at h
    cases h
  · rename_i row
    obtain ⟨ki, hki, hi, hrow⟩ := pyGet_ok_inv hg
    subst hrow
    cases hj : pyIdx (b.get ⟨ki, hki⟩).length p.2
    · simp only [setCell, hg, pySet, hj] at h
      cases h
    · rename_i kj
      rw [setCell_some hki hi hj v] at h
      cases h
      exact ⟨ki, kj, hki, hi, hj, rfl⟩

theorem is_valid_move_oob {b : Grid} {piece : Piece} {pf pt : Pos}
    (h : ¬ inBounds pt) :
    is_valid_move b piece pf pt = .error (.httpException 400 .outOfBounds) := by
  unfold inBounds at h
  unfold is_valid_move
  rw [if_neg h]

theorem is_valid_move_ff {b : Grid} {piece q : Piece} {pf pt : Pos}
    (h : inBounds pt) (hg : get_piece_at b pt = .ok (some q))
    (hc : q.color = piece.color) :
    is_valid_move b piece pf pt = .error (.httpException 400 .friendlyFire) := by
  unfold inBounds at h
  unfold is_valid_move
  rw [if_pos h, hg]
  simp [hc]

theorem is_valid_move_geom_some {b : Grid} {piece q : Piece} {pf pt : Pos}
    (h : inBounds pt) (hg : get_piece_at b pt = .ok (some q))
    (hc : ¬ q.color = piece.color) :
    is_valid_move b piece pf pt = pieceMove piece.kind pf pt := by
  unfold inBounds at h
  unfold is_valid_move
  rw [if_pos h, hg]
  simp [hc]

theorem is_valid_move_geom_none {b : Grid} {piece : Piece} {pf pt : Pos}
    (h : inBounds pt) (hg : get_piece_at b pt = .ok none) :
    is_valid_move b piece pf pt = pieceMove piece.kind pf pt := by
  unfold inBounds at h
  unfold is_valid_move
  rw [if_pos h, hg]

theorem is_valid_move_ok_inv {b : Grid} {piece : Piece} {pf pt : Pos} {r : Bool}
    (h : is_valid_move b piece pf pt = .ok r) :
    inBounds pt ∧ pieceMove piece.kind pf pt = .ok r ∧
      ∃ destOld, get_piece_at b pt = .ok destOld ∧
        ∀ q, destOld = some q → ¬ q.color = piece.color := by
  by_cases hb : inBounds pt
  · cases hg : get_piece_at b pt with
    | error e =>
      have hv : is_valid_move b piece pf pt = .error e := by
        have hb2 := hb
        unfold inBounds at hb2
        unfold is_valid_move
        rw [if_pos hb2, hg]
      rw [hv] at h
      cases h
    | ok occ =>
      cases occ with
      | none =>
        rw [is_valid_move_geom_none hb hg] at h
        exact ⟨hb, h, none, rfl, by intro q hq; cases hq⟩
      | some q =>
        by_cases hc : q.color = piece.color
        · rw [is_valid_move_ff hb hg hc] at h
          cases h
        · rw [is_valid_move_geom_some hb hg hc] at h
          refine ⟨hb, h, some q, rfl, ?_⟩
          intro q2 hq2
          cases hq2
          exact hc
  · rw [is_valid_move_oob hb] at h
    cases h

/-! Counting and shape lemmas used for conservation and atomicity. -/

theorem sum_map_set {α : Type} (f : α → Nat) :
    ∀ (l : List α) (k : Nat) (a : α) (hk : k < l.length),
      ((l.set k a).map f).sum + f (l.get ⟨k, hk⟩) = (l.map f).sum + f a := by
  intro l
  induction l with
  | nil =>
    intro k a hk
    cases hk
  | cons x xs ih =>
    intro k a hk
    cases k with
    | zero =>
      simp [List.set]
      omega
    | succ k2 =>
      have hk2 : k2 < xs.length := by simpa using hk
      have := ih k2 a hk2
      simp only [List.set, List.map_cons, List.sum_cons, List.get_cons_succ]
      omega

theorem length_setCell {b b2 : Grid} {p : Pos} {v : Occupant}
    (h : setCell b p v = .ok b2) : b2.length = b.length := by
  obtain ⟨ki, kj, hki, hi, hj, rfl⟩ := setCell_ok_inv h
  simp

theorem row_length_setCell {b b2 : Grid} {p : Pos} {v : Occupant}
    (h : setCell b p v = .ok b2) :
    ∀ j : Nat, (b2[j]?).map List.length = (b[j]?).map List.length := by
  obtain ⟨ki, kj, hki, hi, hj, rfl⟩ := setCell_ok_inv h
  intro j
  by_cases hij : ki = j
  · subst hij
    rw [List.getElem?_set_eq_of_lt _ hki, List.getElem?_eq_getElem hki]
    simp
  · rw [List.getElem?_set_ne hij]

theorem setCell_ok_of_shape {b b1 : Grid} {pf : Pos} {occ : Occupant}
    (hg : get_piece_at b pf = .ok occ)
    (hlen : b1.length = b.length)
    (hrows : ∀ j : Nat, (b1[j]?).map List.length = (b[j]?).map List.length)
    (v : Occupant) : ∃ b2, setCell b1 pf v = .ok b2 := by
  obtain ⟨ki, kj, hki, hkj, hi, hj, _⟩ := get_piece_at_ok_inv hg
  have hki1 : ki < b1.length := by rw [hlen]; exact hki
  have hrl : (b1.get ⟨ki, hki1⟩).length = (b.get ⟨ki, hki⟩).length := by
    have hq := hrows ki
    rw [List.getElem?_eq_getElem hki1, List.getElem?_eq_getElem hki] at hq
    simpa using hq
  have hi1 : pyIdx b1.length pf.1 = some ki := by rw [hlen]; exact hi
  have hj1 : pyIdx (b1.get ⟨ki, hki1⟩).length pf.2 = some kj := by
    rw [hrl]; exact hj
  exact ⟨_, setCell_some hki1 hi1 hj1 v⟩

theorem move_piece_not_ok_snd {b : Grid} {pf pt : Pos}
    (h : (move_piece b pf pt).1 ≠ .ok true) : (move_piece b pf pt).2 = b := by
  cases hg : get_piece_at b pf with
  | error e => simp [move_piece, hg]
  | ok occ =>
    cases occ with
    | none => simp [move_piece, hg]
    | some piece =>
      cases hv : is_valid_move b piece pf pt with
      | error e => simp [move_piece, hg, hv]
      | ok rv =>
        cases rv with
        | false => simp [move_piece, hg, hv]
        | true =>
          obtain ⟨hbnd, hr, destOld, hgt, hcol⟩ := is_valid_move_ok_inv hv
          obtain ⟨b1, hs1⟩ := setCell_ok_of_shape hgt rfl (fun j => rfl) (some piece)
          obtain ⟨b2, hs2⟩ :=
            setCell_ok_of_shape hg (length_setCell hs1) (row_length_setCell hs1) none
          exact absurd (by simp [move_piece, hg, hv, hs1, hs2]) h

theorem move_piece_ok_inv {b : Grid} {pf pt : Pos}
    (h : (move_piece b pf pt).1 = .ok true) :
    ∃ piece b1 b2, get_piece_at b pf = .ok (some piece) ∧
      is_valid_move b piece pf pt = .ok true ∧
      setCell b pt (some piece) = .ok b1 ∧
      setCell b1 pf none = .ok b2 ∧
      (move_piece b pf pt).2 = b2 := by
  cases hg : get_piece_at b pf with
  | error e => simp [move_piece, hg] at h
  | ok occ =>
    cases occ with
    | none => simp [move_piece, hg] at h
    | some piece =>
      cases hv : is_valid_move b piece pf pt with
      | error e => simp [move_piece, hg, hv] at h
      | ok rv =>
        cases rv with
        | false => simp [move_piece, hg, hv] at h
        | true =>
          cases hs1 : setCell b pt (some piece) with
          | error e => simp [move_piece, hg, hv, hs1] at h
          | ok b1 =>
            cases hs2 : setCell b1 pf none with
            | error e => simp [move_piece, hg, hv, hs1, hs2] at h
            | ok b2 =>
              exact ⟨piece, b1, b2, rfl, hv, hs1, hs2,
                by simp [move_piece, hg, hv, hs1, hs2]⟩

theorem getElem?_some_lt {α : Type} {l : List α} {i : Nat} {a : α}
    (h : l[i]? = some a) : i < l.length := by
  by_contra hc
  rw [List.getElem?_eq_none (by omega)] at h
  cases h

theorem pyGet_some? {α : Type} {l : List α} {i : Int} {k : Nat} {a : α}
    (h : pyIdx l.length i = some k) (ha : l[k]? = some a) :
    pyGet l i = .ok a := by
  rw [pyGet_idx_some h, ha]

theorem pyGet_ok_inv? {α : Type} {l : List α} {i : Int} {a : α}
    (h : pyGet l i = .ok a) :
    ∃ k, pyIdx l.length i = some k ∧ l[k]? = some a := by
  obtain ⟨k, hk, hi, hval⟩ := pyGet_ok_inv h
  refine ⟨k, hi, ?_⟩
  rw [List.getElem?_eq_getElem hk, ← hval]
  rfl

theorem get_piece_at_some? {b : Grid} {p : Pos} {ki kj : Nat}
    {row : List Occupant} {c : Occupant}
    (hi : pyIdx b.length p.1 = some ki) (hrow : b[ki]? = some row)
    (hj : pyIdx row.length p.2 = some kj) (hc : row[kj]? = some c) :
    get_piece_at b p = .ok c := by
  simp only [get_piece_at, pyGet_some? hi hrow, pyGet_some? hj hc]

theorem get_piece_at_ok_inv? {b : Grid} {p : Pos} {occ : Occupant}
    (h : get_piece_at b p = .ok occ) :
    ∃ ki row kj, pyIdx b.length p.1 = some ki ∧ b[ki]? = some row ∧
      pyIdx row.length p.2 = some kj ∧ row[kj]? = some occ := by
  unfold get_piece_at at h
  cases hg : pyGet b p.1 <;> rw [hg] at h
  · cases h
  · rename_i row
    obtain ⟨ki, hi, hrow⟩ := pyGet_ok_inv? hg
    obtain ⟨kj, hj, hc⟩ := pyGet_ok_inv? h
    exact ⟨ki, row, kj, hi, hrow, hj, hc⟩

theorem setCell_ok_inv? {b b2 : Grid} {p : Pos} {v : Occupant}
    (h : setCell b p v = .ok b2) :
    ∃ ki row kj, pyIdx b.length p.1 = some ki ∧ b[ki]? = some row ∧
      pyIdx row.length p.2 = some kj ∧ b2 = b.set ki (row.set kj v) := by
  obtain ⟨ki, kj, hki, hi, hj, hb2⟩ := setCell_ok_inv h
  refine ⟨ki, b.get ⟨ki, hki⟩, kj, hi, ?_, hj, hb2⟩
  rw [List.getElem?_eq_getElem hki]
  rfl

theorem countOcc_setCell {b b2 : Grid} {p : Pos} {v old : Occupant}
    (hs : setCell b p v = .ok b2) (hold : get_piece_at b p = .ok old) :
    countOcc b2 + occVal old = countOcc b + occVal v := by
  obtain ⟨ki, row, kj, hi, hrow, hj, hb2⟩ := setCell_ok_inv? hs
  obtain ⟨ki2, row2, kj2, hi2, hrow2, hj2, hc⟩ := get_piece_at_ok_inv? hold
  rw [hi] at hi2
  cases hi2
  rw [hrow] at hrow2
  cases hrow2
  rw [hj] at hj2
  cases hj2
  have hkrow : kj < row.length := getElem?_some_lt hc
  have hki : ki < b.length := getElem?_some_lt hrow
  have hinner := sum_map_set occVal row kj v hkrow
  have houter := sum_map_set rowCount b ki (row.set kj v) hki
  have e1 : row.get ⟨kj, hkrow⟩ = old := by
    have hq := List.getElem?_eq_getElem hkrow
    rw [hc] at hq
    injection hq with hq2
    rw [List.get_eq_getElem, hq2]
  have e2 : b.get ⟨ki, hki⟩ = row := by
    have hq := List.getElem?_eq_getElem hki
    rw [hrow] at hq
    injection hq with hq2
    rw [List.get_eq_getElem, hq2]
  rw [e1] at hinner
  rw [e2] at houter
  subst hb2
  unfold countOcc
  have hrc : rowCount (row.set kj v) + occVal old = rowCount row + occVal v := hinner
  omega

theorem move_piece_success_count {b : Grid} {pf pt : Pos} {destOld : Occupant}
    (h : (move_piece b pf pt).1 = .ok true)
    (hdest : get_piece_at b pt = .ok destOld) :
    countOcc (move_piece b pf pt).2 + occVal destOld = countOcc b := by
  obtain ⟨piece, b1, b2, hg, hv, hs1, hs2, hsnd⟩ := move_piece_ok_inv h
  obtain ⟨hbnd, hr, destOld2, hdest2, hcol⟩ := is_valid_move_ok_inv hv
  rw [hdest] at hdest2
  cases hdest2
  have h1 : countOcc b1 + occVal destOld = countOcc b + occVal (some piece) :=
    countOcc_setCell hs1 hdest
  obtain ⟨kif, rowf, kjf, hif, hrowf, hjf, hcf⟩ := get_piece_at_ok_inv? hg
  obtain ⟨kit, rowt, kjt, hit, hrowt, hjt, hb1⟩ := setCell_ok_inv? hs1
  obtain ⟨kit2, rowt2, kjt2, hit2, hrowt2, hjt2, hct⟩ := get_piece_at_ok_inv? hdest
  rw [hit] at hit2
  cases hit2
  rw [hrowt] at hrowt2
  cases hrowt2
  rw [hjt] at hjt2
  cases hjt2
  have hdiff : ¬(kif = kit ∧ kjf = kjt) := by
    rintro ⟨he1, he2⟩
    subst he1
    subst he2
    rw [hrowf] at hrowt
    injection hrowt with he3
    subst he3
    rw [hcf] at hct
    injection hct with he4
    exact hcol piece he4.symm rfl
  have hsrc1 : get_piece_at b1 pf = .ok (some piece) := by
    subst hb1
    by_cases hk : kif = kit
    · subst hk
      have he3 : rowt = rowf := by
        rw [hrowf] at hrowt
        injection hrowt with he
        exact he.symm
      subst he3
      have hkj : ¬ kjf = kjt := fun hh => hdiff ⟨rfl, hh⟩
      refine @get_piece_at_some? _ pf kif kjf (rowt.set kjt (some piece)) (some piece) ?_ ?_ ?_ ?_
      · simp only [List.length_set]
        exact hif
      · exact List.getElem?_set_eq_of_lt _ (getElem?_some_lt hrowf)
      · simp only [List.length_set]
        exact hjf
      · rw [List.getElem?_set_ne (fun hh => hkj hh.symm)]
        exact hcf
    · refine @get_piece_at_some? _ pf kif kjf rowf (some piece) ?_ ?_ hjf hcf
      · simp only [List.length_set]
        exact hif
      · rw [List.getElem?_set_ne (fun hh => hk hh.symm)]
        exact hrowf
  have h2 : countOcc b2 + occVal (some piece) = countOcc b1 + occVal none :=
    countOcc_setCell hs2 hsrc1
  rw [hsnd]
  simp only [show occVal (some piece) = 1 from rfl,
    show occVal none = 0 from rfl] at h1 h2
  omega

theorem move_piece_pair_not_ok {b b2 : Grid} {pf pt : Pos}
    {r : Except PyError Bool}
    (hm : move_piece b pf pt = (r, b2)) (hr : r ≠ .ok true) : b2 = b := by
  have h1 : (move_piece b pf pt).1 ≠ .ok true := by rw [hm]; exact hr
  have h2 := move_piece_not_ok_snd h1
  rw [hm] at h2
  exact h2

/-! Claim theorems. -/

/-- C1 counterexample: from the initial game, Light's ("white") request to
move the pawn at (6,4) to the empty square (5,4) does NOT succeed:
`Game.move` returns False and the game is returned unchanged, so the
claim that it returns true (with the side-to-move becoming Dark and the
pawn relocated) is false at this very input. -/
theorem C1_counterexample :
    Game.move Game.init "white" (6, 4) (5, 4) = (.ok (some false), Game.init) ∧
    ¬ (Game.move Game.init "white" (6, 4) (5, 4)).1 = .ok (some true) :=
  ⟨rfl, by decide⟩

/-- C1 amended: starting from the initial board with Light to move, the
request by Light for the pawn at (6,4) to the empty square (5,4) is
rejected: `Game.move` returns False, the side-to-move stays Light
("white"), cell (6,4) still holds a Light Pawn and cell (5,4) stays
empty; the underlying Board failure is the 400 "Invalid move!"
(IllegalGeometry), because the source's pawn rule accepts only moves
with equal ranks and unit file distance. -/
theorem C1_amended_thm :
    Game.move Game.init "white" (6, 4) (5, 4) = (.ok (some false), Game.init) ∧
    (move_piece initBoard (6, 4) (5, 4)).1 = .error (.httpException 400 .invalidMove) ∧
    get_piece_at initBoard (6, 4) = .ok (some ⟨.pawn, "white"⟩) ∧
    get_piece_at initBoard (5, 4) = .ok none ∧
    Game.init.current_player = "white" :=
  ⟨rfl, rfl, rfl, rfl, rfl⟩

/-- C2 counterexample: the successful Rook move (7,0)→(1,0) from the
initial board is a capture (the destination holds a Dark pawn) and
destroys one occupant: 32 occupied cells before, 31 after — so the
count is not conserved by every `move_piece` call. -/
theorem C2_counterexample :
    (move_piece initBoard (7, 0) (1, 0)).1 = .ok true ∧
    get_piece_at initBoard (1, 0) = .ok (some ⟨.pawn, "black"⟩) ∧
    countOcc initBoard = 32 ∧
    countOcc (move_piece initBoard (7, 0) (1, 0)).2 = 31 :=
  ⟨rfl, rfl, rfl, rfl⟩

/-- C2 amended: `Board.move_piece` conserves the occupant count on every
call that does not succeed and on every successful move whose
destination cell was empty; a successful move onto an occupied
destination (a capture) decreases the count by exactly one — stated as
count-after plus the destination's old occupancy equals count-before. -/
theorem C2_amended_thm : ∀ (b : Grid) (pf pt : Pos),
    ((move_piece b pf pt).1 ≠ .ok true →
       countOcc (move_piece b pf pt).2 = countOcc b) ∧
    (∀ destOld : Occupant, (move_piece b pf pt).1 = .ok true →
       get_piece_at b pt = .ok destOld →
       countOcc (move_piece b pf pt).2 + occVal destOld = countOcc b) := by
  intro b pf pt
  constructor
  · intro h
    rw [move_piece_not_ok_snd h]
  · intro destOld h hdest
    exact move_piece_success_count h hdest

/-- C2 witness: the amended theorem applied to the rejected move
(0,0)→(0,1) (count unchanged) and to the capture (7,0)→(1,0) (the
captured Dark pawn accounts for the drop). -/
theorem C2_amended_witness :
    countOcc (move_piece initBoard (0, 0) (0, 1)).2 = countOcc initBoard ∧
    countOcc (move_piece initBoard (7, 0) (1, 0)).2 +
      occVal (some ⟨.pawn, "black"⟩) = countOcc initBoard :=
  ⟨(C2_amended_thm initBoard (0, 0) (0, 1)).1 (by decide),
   (C2_amended_thm initBoard (7, 0) (1, 0)).2 (some ⟨.pawn, "black"⟩)
     (by decide) (by decide)⟩

/-- C3 counterexample: `get_piece_at` never reports OutOfBounds: at
(-1,0) — rank outside [0,8) — it silently returns the Light Rook of the
wrapped cell (7,0), and at (8,0) it raises a bare IndexError, not an
OutOfBounds HTTPException. -/
theorem C3_counterexample :
    get_piece_at initBoard (-1, 0) = .ok (some ⟨.rook, "white"⟩) ∧
    get_piece_at initBoard (8, 0) = .error .indexError :=
  ⟨rfl, rfl⟩

/-- C3 amended: `get_piece_at` performs no bounds check and never fails
with an HTTPException of any kind; on an 8x8 grid, a position with both
coordinates in [-8,8) is answered with some cell's occupant (negative
indices wrap, so out-of-range positions can silently return an
occupant), and any other position raises a bare IndexError. -/
theorem C3_amended_thm : ∀ (b : Grid) (p : Pos),
    (∀ (s : Nat) (d : ErrDetail),
       get_piece_at b p ≠ .error (.httpException s d)) ∧
    (b.length = 8 → (∀ row ∈ b, row.length = 8) →
      ((extBounds p → ∃ occ, get_piece_at b p = .ok occ) ∧
       (¬ extBounds p → get_piece_at b p = .error .indexError))) := by
  intro b p
  constructor
  · intro s d h
    cases get_piece_at_error_eq h
  · intro h8 hrows
    constructor
    · intro hext
      unfold extBounds at hext
      obtain ⟨k1, hk1⟩ : ∃ k, pyIdx b.length p.1 = some k := by
        rw [h8]
        exact pyIdx_some_of (by push_cast; omega)
      have hk1lt : k1 < b.length := pyIdx_lt hk1
      have hrl : (b.get ⟨k1, hk1lt⟩).length = 8 := hrows _ (List.get_mem b k1 hk1lt)
      obtain ⟨k2, hk2⟩ : ∃ k, pyIdx (b.get ⟨k1, hk1lt⟩).length p.2 = some k := by
        rw [hrl]
        exact pyIdx_some_of (by push_cast; omega)
      exact ⟨_, get_piece_at_some hk1lt hk1 (pyIdx_lt hk2) hk2⟩
    · intro hnext
      unfold extBounds at hnext
      by_cases h1 : -8 ≤ p.1 ∧ p.1 < 8
      · have h2 : ¬(-8 ≤ p.2 ∧ p.2 < 8) :=
          fun hh => hnext ⟨h1.1, h1.2, hh.1, hh.2⟩
        obtain ⟨k1, hk1⟩ : ∃ k, pyIdx b.length p.1 = some k := by
          rw [h8]
          exact pyIdx_some_of (by push_cast; omega)
        have hk1lt : k1 < b.length := pyIdx_lt hk1
        have hrl : (b.get ⟨k1, hk1lt⟩).length = 8 := hrows _ (List.get_mem b k1 hk1lt)
        have hk2 : pyIdx (b.get ⟨k1, hk1lt⟩).length p.2 = none := by
          rw [hrl]
          exact pyIdx_none_of (by push_cast; omega)
        simp only [get_piece_at, pyGet_some hk1 hk1lt, pyGet_none hk2]
      · have hk1 : pyIdx b.length p.1 = none := by
          rw [h8]
          exact pyIdx_none_of (by push_cast; omega)
        simp only [get_piece_at, pyGet_none hk1]

/-- C3 witness: the amended theorem instantiated on the initial board at
(-1,0) (wraps, answers an occupant, no OutOfBounds) and (9,0)
(IndexError). -/
theorem C3_witness :
    get_piece_at initBoard (-1, 0) ≠ .error (.httpException 400 .outOfBounds) ∧
    (∃ occ, get_piece_at initBoard (-1, 0) = .ok occ) ∧
    get_piece_at initBoard (9, 0) = .error .indexError :=
  ⟨(C3_amended_thm initBoard (-1, 0)).1 400 .outOfBounds,
   ((C3_amended_thm initBoard (-1, 0)).2 rfl (by decide)).1 (by decide),
   ((C3_amended_thm initBoard (9, 0)).2 rfl (by decide)).2 (by decide)⟩

/-- C4: `Board.move_piece` is atomic — whenever the call does not
succeed (validation returns false or any error is raised: EmptySource,
OutOfBounds, FriendlyFire, IllegalGeometry, or even a bare IndexError),
the board is returned exactly as it was; a move is never partially
applied. -/
theorem C4_atomic : ∀ (b : Grid) (pf pt : Pos),
    (move_piece b pf pt).1 ≠ .ok true → (move_piece b pf pt).2 = b :=
  fun _ _ _ h => move_piece_not_ok_snd h

/-- C4 witness: the atomicity theorem applied to the rejected
friendly-fire move (0,0)→(0,1) on the initial board. -/
theorem C4_atomic_witness :
    (move_piece initBoard (0, 0) (0, 1)).1 ≠ .ok true ∧
    (move_piece initBoard (0, 0) (0, 1)).2 = initBoard :=
  ⟨by decide, C4_atomic initBoard (0, 0) (0, 1) (by decide)⟩

/-- C5: the side-to-move starts at Light ("white"); over every call,
`Game.move` flips it exactly on success (to the opponent of the current
side) and leaves it unchanged on every rejected or failed call; in
particular a request by a player who is not the side-to-move returns
False with the whole game (board included) untouched, and any
non-successful call leaves the board unchanged as well. -/
theorem C5_turn_machine :
    Game.init.current_player = "white" ∧
    ∀ (g : Game) (player : String) (pf pt : Pos),
      (¬ player = g.current_player →
         Game.move g player pf pt = (.ok (some false), g)) ∧
      ((Game.move g player pf pt).1 = .ok (some true) →
         player = g.current_player ∧
         (Game.move g player pf pt).2.current_player =
           (if g.current_player = "white" then "black" else "white")) ∧
      ((Game.move g player pf pt).1 ≠ .ok (some true) →
         (Game.move g player pf pt).2.current_player = g.current_player ∧
         (Game.move g player pf pt).2.board = g.board) := by
  refine ⟨rfl, ?_⟩
  intro g player pf pt
  by_cases hp : player = g.current_player
  · cases hm : move_piece g.board pf pt with
    | mk r b2 =>
      cases r with
      | ok rv =>
        cases rv with
        | false =>
          have hb2 : b2 = g.board :=
            move_piece_pair_not_ok hm (by intro hh; cases hh)
          refine ⟨fun hc => absurd hp hc, ?_, ?_⟩
          · intro h1
            simp [Game.move, hp, hm] at h1
          · intro _
            constructor <;> simp [Game.move, hp, hm, hb2]
        | true =>
          refine ⟨fun hc => absurd hp hc, ?_, ?_⟩
          · intro _
            refine ⟨hp, ?_⟩
            simp [Game.move, hp, hm]
          · intro h1
            exfalso
            apply h1
            simp [Game.move, hp, hm]
      | error e =>
        have hb2 : b2 = g.board :=
          move_piece_pair_not_ok hm (by intro hh; cases hh)
        cases e with
        | httpException s d =>
          refine ⟨fun hc => absurd hp hc, ?_, ?_⟩
          · intro h1
            simp [Game.move, hp, hm] at h1
          · intro _
            constructor <;> simp [Game.move, hp, hm, hb2]
        | indexError =>
          refine ⟨fun hc => absurd hp hc, ?_, ?_⟩
          · intro h1
            simp [Game.move, hp, hm] at h1
          · intro _
            constructor <;> simp [Game.move, hp, hm, hb2]
        | typeError =>
          refine ⟨fun hc => absurd hp hc, ?_, ?_⟩
          · intro h1
            simp [Game.move, hp, hm] at h1
          · intro _
            constructor <;> simp [Game.move, hp, hm, hb2]
  · refine ⟨fun _ => ?_, ?_, ?_⟩
    · unfold Game.move
      rw [if_neg hp]
    · intro h1
      unfold Game.move at h1
      rw [if_neg hp] at h1
      simp at h1
    · intro _
      unfold Game.move
      rw [if_neg hp]
      exact ⟨rfl, rfl⟩

/-- C5 witness: the turn theorem applied to a wrong-turn request (Dark
moving first: rejected, game untouched), a successful Knight move by
Light (side-to-move flips), and Light's rejected pawn request
(side-to-move stays). -/
theorem C5_witness :
    Game.move Game.init "black" (1, 0) (2, 0) = (.ok (some false), Game.init) ∧
    (Game.move Game.init "white" (7, 1) (5, 0)).1 = .ok (some true) ∧
    (Game.move Game.init "white" (7, 1) (5, 0)).2.current_player =
      (if Game.init.current_player = "white" then "black" else "white") ∧
    (Game.move Game.init "white" (6, 4) (5, 4)).2.current_player =
      Game.init.current_player :=
  ⟨(C5_turn_machine.2 Game.init "black" (1, 0) (2, 0)).1 (by decide),
   by decide,
   ((C5_turn_machine.2 Game.init "white" (7, 1) (5, 0)).2.1 (by decide)).2,
   ((C5_turn_machine.2 Game.init "white" (6, 4) (5, 4)).2.2 (by decide)).1⟩

/-- C6: `is_valid_move` checks in a fixed order — destination bounds
first, then same-side occupancy of the destination, then the dispatch
to the piece kind's geometric rule — so every destination with rank or
file outside [0,8) fails with OutOfBounds regardless of piece kind,
geometry or occupancy; an in-bounds same-side destination fails with
FriendlyFire regardless of geometry; and otherwise the call returns
whatever the kind's rule computation produces — a boolean verdict for
the five working kinds, the uncaught TypeError for a Queen. -/
theorem C6_validation_order : ∀ (b : Grid) (piece : Piece) (pf pt : Pos),
    (¬ inBounds pt →
       is_valid_move b piece pf pt = .error (.httpException 400 .outOfBounds)) ∧
    (∀ q : Piece, inBounds pt → get_piece_at b pt = .ok (some q) →
       q.color = piece.color →
       is_valid_move b piece pf pt = .error (.httpException 400 .friendlyFire)) ∧
    (∀ q : Piece, inBounds pt → get_piece_at b pt = .ok (some q) →
       ¬ q.color = piece.color →
       is_valid_move b piece pf pt = pieceMove piece.kind pf pt) ∧
    (inBounds pt → get_piece_at b pt = .ok none →
       is_valid_move b piece pf pt = pieceMove piece.kind pf pt) :=
  fun _ _ _ _ =>
    ⟨is_valid_move_oob,
     fun _ h1 h2 h3 => is_valid_move_ff h1 h2 h3,
     fun _ h1 h2 h3 => is_valid_move_geom_some h1 h2 h3,
     fun h1 h2 => is_valid_move_geom_none h1 h2⟩

/-- C6 witness: the branches at concrete inputs on the initial board —
a rank-8 destination is OutOfBounds for a pawn AND for a queen (whose
rule would crash, showing bounds take precedence); (7,0)→(7,1) is
FriendlyFire for the Light rook regardless of the rook's geometry; the
capture square (1,0) falls through to the rook's verdict; and a queen
aimed at the empty square (5,3) reaches the third step, where its rule
raises TypeError. -/
theorem C6_witness :
    is_valid_move initBoard ⟨.pawn, "white"⟩ (6, 0) (8, 0) =
      .error (.httpException 400 .outOfBounds) ∧
    is_valid_move initBoard ⟨.queen, "white"⟩ (7, 3) (8, 3) =
      .error (.httpException 400 .outOfBounds) ∧
    is_valid_move initBoard ⟨.rook, "white"⟩ (7, 0) (7, 1) =
      .error (.httpException 400 .friendlyFire) ∧
    is_valid_move initBoard ⟨.rook, "white"⟩ (7, 0) (1, 0) =
      pieceMove .rook (7, 0) (1, 0) ∧
    is_valid_move initBoard ⟨.queen, "white"⟩ (7, 3) (5, 3) =
      pieceMove .queen (7, 3) (5, 3) :=
  ⟨(C6_validation_order initBoard ⟨.pawn, "white"⟩ (6, 0) (8, 0)).1 (by decide),
   (C6_validation_order initBoard ⟨.queen, "white"⟩ (7, 3) (8, 3)).1 (by decide),
   (C6_validation_order initBoard ⟨.rook, "white"⟩ (7, 0) (7, 1)).2.1
     ⟨.knight, "white"⟩ (by decide) (by decide) rfl,
   (C6_validation_order initBoard ⟨.rook, "white"⟩ (7, 0) (1, 0)).2.2.1
     ⟨.pawn, "black"⟩ (by decide) (by decide) (by decide),
   (C6_validation_order initBoard ⟨.queen, "white"⟩ (7, 3) (5, 3)).2.2.2
     (by decide) (by decide)⟩

/-- C7 (code bug): the claim — each kind's geometric rule equals the
spec's §4.1 table — is the clear intent (the source's `Queen.move` body
literally attempts Rook-rule `or` Bishop-rule), but the code slips:
`Rook()` / `Bishop()` are constructed without the `color` argument
`Piece.__init__` requires, so every Queen rule evaluation raises
TypeError instead of the table's verdict (also contradicting the spec's
§7 promise that the core never raises an unrecoverable fault). The
theorem records the divergence: the queen computation errors on every
input while the spec table gives a verdict (e.g. true at (7,3)→(5,3)),
and the five other kinds match the table exactly. -/
theorem C7_rule_table :
    (∀ pf pt : Pos, pieceMove .queen pf pt = .error .typeError) ∧
    specGeomRule .queen (7, 3) (5, 3) = true ∧
    (∀ (k : PieceKind) (pf pt : Pos), ¬ k = .queen →
       pieceMove k pf pt = .ok (specGeomRule k pf pt)) := by
  refine ⟨fun _ _ => rfl, by decide, ?_⟩
  intro k pf pt hk
  cases k <;> try exact absurd rfl hk
  all_goals
    refine congrArg Except.ok ?_
  all_goals
    rw [Bool.eq_iff_iff]
  all_goals
    simp only [specGeomRule, King.move, Rook.move, Bishop.move, Knight.move,
      Pawn.move, specRookRule, specBishopRule, specDx, specDy,
      Bool.or_eq_true, decide_eq_true_eq, Int.abs_eq_natAbs]
  all_goals
    omega

/-- C7 witness: the rule-table theorem applied to the queen at
(7,3)→(5,3) (TypeError, never the table's verdict) and to the rook at
(7,0)→(1,0) (verdict equal to the spec table). -/
theorem C7_rule_table_witness :
    pieceMove .queen (7, 3) (5, 3) = .error .typeError ∧
    pieceMove .rook (7, 0) (1, 0) = .ok (specGeomRule .rook (7, 0) (1, 0)) :=
  ⟨C7_rule_table.1 (7, 3) (5, 3),
   C7_rule_table.2.2 .rook (7, 0) (1, 0) (by decide)⟩

/-- C9: every piece kind's geometric move computation gives the same
outcome on (from, to) as on (to, from): the five computed rules are
symmetric boolean verdicts, and the queen's computation raises the same
TypeError in both orientations, so it accepts (from, to) exactly when
it accepts (to, from). -/
theorem C9_rule_symm : ∀ (k : PieceKind) (pf pt : Pos),
    pieceMove k pf pt = pieceMove k pt pf := by
  intro k pf pt
  cases k <;> simp only [pieceMove, Queen.move] <;> try rfl
  all_goals
    refine congrArg Except.ok ?_
  all_goals
    rw [Bool.eq_iff_iff]
  all_goals
    simp only [King.move, Rook.move, Bishop.move, Knight.move, Pawn.move,
      Bool.or_eq_true, decide_eq_true_eq, Int.abs_eq_natAbs]
  all_goals
    omega

/-- C10: a null move is impossible — for every in-bounds occupied
square p, `move_piece p p` fails with FriendlyFire (the destination
holds the mover itself) and the board is unchanged. -/
theorem C10_null_move : ∀ (b : Grid) (p : Pos) (occ : Piece),
    inBounds p → get_piece_at b p = .ok (some occ) →
    move_piece b p p = (.error (.httpException 400 .friendlyFire), b) := by
  intro b p occ hb hg
  have hv : is_valid_move b occ p p = .error (.httpException 400 .friendlyFire) :=
    is_valid_move_ff hb hg rfl
  simp [move_piece, hg, hv]

/-- C10 witness: the null-move theorem applied to the Dark rook square
(0,0) of the initial board. -/
theorem C10_witness :
    inBounds ((0 : Int), (0 : Int)) ∧
    get_piece_at initBoard (0, 0) = .ok (some ⟨.rook, "black"⟩) ∧
    move_piece initBoard (0, 0) (0, 0) =
      (.error (.httpException 400 .friendlyFire), initBoard) :=
  ⟨by decide, rfl, C10_null_move initBoard (0, 0) ⟨.rook, "black"⟩ (by decide) rfl⟩

/-- C8: `serialize_board` maps the grid row-by-row and cell-by-cell:
it keeps the number of rows and every row's length (8 rows of 8 cells
for the game's 8x8 grids), renders every cell as either the empty
marker (`None`) or the occupant's piece-kind identifier (its class
name), and never includes the occupant's side — repainting every
piece's color leaves the serialization unchanged. -/
theorem C8_serialization : ∀ (b : Grid),
    (serialize_board b).length = b.length ∧
    (∀ i : Nat, ((serialize_board b)[i]?).map List.length =
       (b[i]?).map List.length) ∧
    (∀ i j : Nat, ((serialize_board b)[i]?.bind (fun r => r[j]?)) =
       (b[i]?.bind (fun r => r[j]?)).map
         (fun c => Option.map (fun p => class_name p.kind) c)) ∧
    (b.length = 8 → (∀ row ∈ b, row.length = 8) →
       (serialize_board b).length = 8 ∧
       ∀ srow ∈ serialize_board b, srow.length = 8) ∧
    (∀ f : String → String,
       serialize_board (recolor f b) = serialize_board b) := by
  intro b
  refine ⟨by simp [serialize_board], ?_, ?_, ?_, ?_⟩
  · intro i
    unfold serialize_board
    rw [List.getElem?_map]
    cases hb : b[i]? <;> simp
  · intro i j
    unfold serialize_board
    rw [List.getElem?_map]
    cases hb : b[i]? with
    | none => simp
    | some row =>
      simp only [Option.map_some', Option.some_bind]
      rw [List.getElem?_map]
      cases hr : row[j]? with
      | none => simp
      | some c => cases c <;> simp
  · intro h8 hrows
    constructor
    · simp [serialize_board, h8]
    · intro srow hs
      unfold serialize_board at hs
      rw [List.mem_map] at hs
      obtain ⟨row, hrow, rfl⟩ := hs
      simp [hrows row hrow]
  · intro f
    unfold serialize_board recolor
    rw [List.map_map]
    congr 1
    funext row
    simp only [Function.comp]
    rw [List.map_map]
    congr 1
    funext c
    cases c <;> rfl

/-- C8 witness: the serialization theorem instantiated on the initial
board (8 rows of 8 cells) and on a repaint that erases every side. -/
theorem C8_witness :
    (serialize_board initBoard).length = 8 ∧
    (∀ srow ∈ serialize_board initBoard, srow.length = 8) ∧
    serialize_board (recolor (fun _ => "hidden") initBoard) =
      serialize_board initBoard :=
  ⟨((C8_serialization initBoard).2.2.2.1 rfl (by decide)).1,
   ((C8_serialization initBoard).2.2.2.1 rfl (by decide)).2,
   (C8_serialization initBoard).2.2.2.2 (fun _ => "hidden")⟩
